import Mathlib

/-!
Verification of the SQLite-backed FUSE filesystem (`lab8`): a shallow
embedding of `database.py` (`Database`) and `sqlitefs.py` (`SQLiteFS`).

Modelling conventions:
* Byte strings are `List Nat` (one `Nat` per byte); timestamps are `Nat`
  values passed explicitly as a `now` argument wherever the Python code
  calls `time.time()`.
* The SQLite tables are embedded as:
  - `inodes`:  a map `Nat → Option Inode` keyed by the `id` column;
  - `entries`: a `List Entry` kept in insertion (rowid) order, so that an
    un-ordered `fetchone` returns the first matching element;
  - `file_data`: a map `Nat → Nat → Option (List Nat)` keyed by
    `(inode_id, chunk_num)`.
* Each Python method runs inside one transaction that commits on success
  and rolls back on any raised exception; accordingly fallible methods
  return `Except String DB` (the `String` is the exception message) and an
  `Except.error` result leaves the caller's database untouched.
* The `while` loop in `Database.rename` has no termination guarantee in
  Python, so its embedding takes an explicit `fuel` bound; theorems about
  it supply enough fuel for the behaviour to be fuel-independent.
-/

/-- A row of the `inodes` table (`database.py` schema, lines 49-61).
`nlink` is an `Int` because the SQL `UPDATE inodes SET nlink = nlink - 1`
can drive it below zero. The `id` field mirrors the `id` column that
`dict(row)` exposes to callers of `get_inode`. -/
structure Inode where
  id : Nat
  mode : Nat
  uid : Nat
  gid : Nat
  size : Nat
  atime : Nat
  mtime : Nat
  ctime : Nat
  nlink : Int
deriving DecidableEq, Repr

/-- A row of the `entries` table: `(parent_id, name, inode_id)`. -/
structure Entry where
  parent_id : Nat
  name : String
  inode_id : Nat
deriving DecidableEq, Repr

/-- The `file_data` table: `(inode_id, chunk_num) → data`. -/
def ChunkMap : Type := Nat → Nat → Option (List Nat)

/-- The whole persistent database plus the AUTOINCREMENT counter. -/
structure DB where
  inodes : Nat → Option Inode
  entries : List Entry
  chunks : ChunkMap
  nextId : Nat

/-- `CHUNK_SIZE = 4096` (`database.py`, `write_data`/`read_data`/`truncate`). -/
def CHUNK_SIZE : Nat := 4096

/-- `SELECT inode_id FROM entries WHERE parent_id = ? AND name = ?` followed
by `fetchone` (the `(parent_id, name)` primary key makes the row unique). -/
def findEntry (db : DB) (p : Nat) (n : String) : Option Nat :=
  (db.entries.find? (fun e => e.parent_id == p && e.name == n)).map (fun e => e.inode_id)

/-- `Database.get_inode` (database.py lines 130-138): fetch an inode row by id. -/
def Database.get_inode (db : DB) (inode_id : Nat) : Option Inode :=
  db.inodes inode_id

/-- Helper for `pySplitSlash`: accumulate the current segment (reversed)
and cut a segment at every `'/'`. -/
def splitSlashAux : List Char → List Char → List String
  | [], acc => [acc.reverse.asString]
  | c :: rest, acc =>
    if c = '/' then acc.reverse.asString :: splitSlashAux rest []
    else splitSlashAux rest (c :: acc)

/-- Python's `path.split('/')`: cut at every slash, keeping empty segments
(`"/a/".split('/') == ['', 'a', '']`). -/
def pySplitSlash (s : String) : List String :=
  splitSlashAux s.toList []

/-- The component walk inside `Database.get_inode_by_path`: for each part
look up `(current_id, part)` in `entries`, failing on the first miss. -/
def resolveId (db : DB) : Nat → List String → Option Nat
  | cur, [] => some cur
  | cur, part :: rest =>
    match findEntry db cur part with
    | none => none
    | some nid => resolveId db nid rest

/-- `Database.get_inode_by_path` (database.py lines 107-128).
`path.split('/')` with empty parts dropped, walking from inode 1. -/
def Database.get_inode_by_path (db : DB) (path : String) : Option Inode :=
  if path = "/" then Database.get_inode db 1
  else
    match resolveId db 1 ((pySplitSlash path).filter (fun s => s ≠ "")) with
    | none => none
    | some cur => Database.get_inode db cur

/-- The chunk buffer `write_data` starts from (database.py lines 297-312):
the stored blob zero-padded to `CHUNK_SIZE`, or a fresh zero-filled buffer
when the row is absent.  A stored empty blob is falsy in Python and yields
the fresh zero buffer, which coincides with padding `[]` to `CHUNK_SIZE`. -/
def chunkBase (m : ChunkMap) (i k : Nat) : List Nat :=
  match m i k with
  | some d => d ++ List.replicate (CHUNK_SIZE - d.length) 0
  | none => List.replicate CHUNK_SIZE 0

/-- One iteration of the `for chunk_num in range(start_chunk, end_chunk + 1)`
loop of `write_data` (database.py lines 286-325), acting on the `file_data`
map; `pos` is `data_pos`. Slice assignment on the `bytearray` replaces the
region `[chunk_offset, chunk_offset + write_len)` of the buffer. -/
def writeChunks (i : Nat) (data : List Nat) (offset : Nat) :
    Nat → Nat → Nat → ChunkMap → ChunkMap
  | _, 0, _, m => m
  | k, n + 1, pos, m =>
    let chunk_start := k * CHUNK_SIZE
    let chunk_end := (k + 1) * CHUNK_SIZE
    let write_start := max offset chunk_start
    let write_end := min (offset + data.length) chunk_end
    if write_end ≤ write_start then
      writeChunks i data offset (k + 1) n pos m
    else
      let base := chunkBase m i k
      let chunk_offset := write_start - chunk_start
      let write_len := write_end - write_start
      let newChunk :=
        base.take chunk_offset ++ ((data.drop pos).take write_len ++
          base.drop (chunk_offset + write_len))
      writeChunks i data offset (k + 1) n (pos + write_len)
        (fun i' k' => if i' = i ∧ k' = k then some newChunk else m i' k')

/-- `Database.write_data` (database.py lines 256-327). Fails when the inode
row is absent; otherwise updates `size`/`mtime`, rewrites the covered
chunks and returns the byte count written. -/
def Database.write_data (db : DB) (inode_id offset : Nat) (data : List Nat)
    (now : Nat) : Except String (DB × Nat) :=
  match db.inodes inode_id with
  | none => .error "Inode not found"
  | some ino =>
    let data_len := data.length
    let new_size := max ino.size (offset + data_len)
    let start_chunk := offset / CHUNK_SIZE
    let end_chunk := (offset + data_len - 1) / CHUNK_SIZE
    let inodes1 := fun j => if j = inode_id then
        some { ino with size := new_size, mtime := now } else db.inodes j
    let chunks1 := writeChunks inode_id data offset start_chunk
        (end_chunk + 1 - start_chunk) 0 db.chunks
    .ok ({ db with inodes := inodes1, chunks := chunks1 }, data_len)

/-- The bytes synthesized by `read_data` for a missing (or empty, hence
falsy) chunk row: zeros for `[chunk_start, min (chunk_start + CHUNK_SIZE)
file_size)` (database.py lines 364-368; a negative Python length yields
`b''` just as truncated `Nat` subtraction does). -/
def holeBytes (k file_size : Nat) : List Nat :=
  List.replicate (min (k * CHUNK_SIZE + CHUNK_SIZE) file_size - k * CHUNK_SIZE) 0

/-- The `for chunk_num in range(start_chunk, end_chunk + 1)` loop of
`read_data` (database.py lines 355-379), concatenating the per-chunk
slices; `length` is already clamped. -/
def readChunks (i : Nat) (m : ChunkMap) (file_size offset length : Nat) :
    Nat → Nat → List Nat
  | _, 0 => []
  | k, n + 1 =>
    let chunk_data :=
      match m i k with
      | some d => if d = [] then holeBytes k file_size else d
      | none => holeBytes k file_size
    let chunk_start := k * CHUNK_SIZE
    let chunk_end := min (chunk_start + chunk_data.length) file_size
    let read_start := max offset chunk_start
    let read_end := min (offset + length) chunk_end
    let piece :=
      if read_start < read_end then
        (chunk_data.drop (read_start - chunk_start)).take (read_end - read_start)
      else []
    piece ++ readChunks i m file_size offset length (k + 1) n

/-- `Database.read_data` (database.py lines 329-381): empty result for a
missing inode or an offset at/past EOF, otherwise the clamped chunked read. -/
def Database.read_data (db : DB) (inode_id offset length : Nat) : List Nat :=
  match db.inodes inode_id with
  | none => []
  | some ino =>
    if ino.size ≤ offset then []
    else
      let length := min length (ino.size - offset)
      let start_chunk := offset / CHUNK_SIZE
      let end_chunk := (offset + length - 1) / CHUNK_SIZE
      readChunks inode_id db.chunks ino.size offset length start_chunk
        (end_chunk + 1 - start_chunk)

/-- `Database.truncate` (database.py lines 383-455). Updates `size`/`mtime`,
then on shrink deletes the chunks past the new end and shortens the last
surviving chunk, and on growth zero-pads a short tail chunk up to
`CHUNK_SIZE`; `if row and row['data']` makes an empty stored blob falsy. -/
def Database.truncate (db : DB) (inode_id length now : Nat) :
    Except String DB :=
  match db.inodes inode_id with
  | none => .error "Inode not found"
  | some ino =>
    let current_size := ino.size
    let inodes1 := fun j => if j = inode_id then
        some { ino with size := length, mtime := now } else db.inodes j
    if length < current_size then
      let start_chunk := (length + CHUNK_SIZE - 1) / CHUNK_SIZE
      let chunks1 := fun i' k => if i' = inode_id ∧ start_chunk ≤ k then none
        else db.chunks i' k
      if 0 < length ∧ length % CHUNK_SIZE ≠ 0 then
        let last_chunk := (length - 1) / CHUNK_SIZE
        match chunks1 inode_id last_chunk with
        | some d =>
          if d ≠ [] then
            let new_length := length - last_chunk * CHUNK_SIZE
            if new_length < d.length then
              .ok { db with
                    inodes := inodes1,
                    chunks := (fun i' k => if i' = inode_id ∧ k = last_chunk then
                      some (d.take new_length) else chunks1 i' k) }
            else .ok { db with inodes := inodes1, chunks := chunks1 }
          else .ok { db with inodes := inodes1, chunks := chunks1 }
        | none => .ok { db with inodes := inodes1, chunks := chunks1 }
      else .ok { db with inodes := inodes1, chunks := chunks1 }
    else
      if 0 < current_size ∧ current_size % CHUNK_SIZE ≠ 0 then
        let last_chunk := (current_size - 1) / CHUNK_SIZE
        match db.chunks inode_id last_chunk with
        | some d =>
          if d ≠ [] then
            let needed := CHUNK_SIZE - d.length
            if 0 < needed then
              .ok { db with
                    inodes := inodes1,
                    chunks := (fun i' k => if i' = inode_id ∧ k = last_chunk then
                      some (d ++ List.replicate needed 0) else db.chunks i' k) }
            else .ok { db with inodes := inodes1 }
          else .ok { db with inodes := inodes1 }
        | none => .ok { db with inodes := inodes1 }
      else .ok { db with inodes := inodes1 }

/-- `Database.update_times` (database.py lines 457-483): update exactly the
provided timestamp columns of the row with the given id (no-op if the row
is absent or no field is supplied). -/
def Database.update_times (db : DB) (inode_id : Nat)
    (atime mtime ctime : Option Nat) : DB :=
  { db with inodes := fun j => if j = inode_id then
      (db.inodes j).map (fun ino =>
        { ino with atime := atime.getD ino.atime,
                   mtime := mtime.getD ino.mtime,
                   ctime := ctime.getD ino.ctime })
      else db.inodes j }

/-- `Database.chmod` (database.py lines 485-493): store the new mode and
set `ctime = now` on the row with the given id. -/
def Database.chmod (db : DB) (inode_id mode now : Nat) : DB :=
  { db with inodes := fun j => if j = inode_id then
      (db.inodes j).map (fun ino => { ino with mode := mode, ctime := now })
      else db.inodes j }

/-- `Database.create_entry` (database.py lines 140-181): resolve the parent,
refuse a duplicate `(parent_id, name)`, insert a fresh inode (`nlink = 2`
for a directory, else `1`) and the entry, plus `.`/`..` rows for a new
directory. Returns the new inode id (`cursor.lastrowid`). -/
def Database.create_entry (db : DB) (parent_path name : String)
    (mode uid gid now : Nat) : Except String (DB × Nat) :=
  match Database.get_inode_by_path db parent_path with
  | none => .error "Parent directory not found"
  | some parent_inode =>
    let parent_id := parent_inode.id
    if (findEntry db parent_id name).isSome then .error "Entry already exists"
    else
      let new_id := db.nextId
      let ino : Inode :=
        { id := new_id, mode := mode, uid := uid, gid := gid, size := 0,
          atime := now, mtime := now, ctime := now,
          nlink := if mode &&& 0o40000 ≠ 0 then 2 else 1 }
      let entries1 := db.entries ++ [⟨parent_id, name, new_id⟩]
      let entries2 := if mode &&& 0o40000 ≠ 0 then
          entries1 ++ [⟨new_id, ".", new_id⟩, ⟨new_id, "..", parent_id⟩]
        else entries1
      .ok ({ db with
              inodes := fun j => if j = new_id then some ino else db.inodes j,
              entries := entries2,
              nextId := new_id + 1 }, new_id)

/-- `Database.remove_entry` (database.py lines 183-236): resolve the parent,
find the entry and its inode; a directory still holding an entry other
than `.`/`..` raises `Directory not empty`; otherwise delete the entry and
decrement `nlink`, and when the new `nlink` is ≤ 0 also delete the inode's
chunks, every remaining entry referencing it, and the inode row itself. -/
def Database.remove_entry (db : DB) (parent_path name : String) :
    Except String DB :=
  match Database.get_inode_by_path db parent_path with
  | none => .error "Parent directory not found"
  | some parent_inode =>
    let parent_id := parent_inode.id
    match findEntry db parent_id name with
    | none => .error "Entry not found"
    | some inode_id =>
      match db.inodes inode_id with
      | none => .error "Inode not found"
      | some inode_info =>
        if inode_info.mode &&& 0o40000 ≠ 0 ∧
            0 < (db.entries.filter (fun e =>
              e.parent_id == inode_id && e.name != "." && e.name != "..")).length then
          .error "Directory not empty"
        else
          let entries1 := db.entries.filter (fun e =>
            !(e.parent_id == parent_id && e.name == name))
          let nlink1 := inode_info.nlink - 1
          if nlink1 ≤ 0 then
            -- the interim nlink update on the row is overwritten by its deletion
            .ok { db with
                  entries := entries1.filter (fun e => e.inode_id != inode_id),
                  inodes := fun j => if j = inode_id then none else db.inodes j,
                  chunks := fun i' k => if i' = inode_id then none else db.chunks i' k }
          else
            .ok { db with
                  entries := entries1,
                  inodes := fun j => if j = inode_id then
                    some { inode_info with nlink := nlink1 } else db.inodes j }

/-- One fetch of the upward query in `Database.rename` (database.py lines
551-560): `e1` is the unique `(current, '..')` row; the join then returns
`e2.inode_id` for entries `e2` whose `parent_id` is `e1.inode_id`, and
`fetchone` takes the first such row in storage order. -/
def walkStep (db : DB) (current : Nat) : Option Nat :=
  match findEntry db current ".." with
  | none => none
  | some par =>
    (db.entries.find? (fun e => e.parent_id == par)).map (fun e => e.inode_id)

/-- The `while current_id != 1` cycle-detection loop of `Database.rename`
(database.py lines 545-560), with an explicit fuel bound standing in for
the unbounded Python loop (0 fuel returns `ok`, so callers must supply
enough fuel to cover the walk they reason about). -/
def renameWalk (db : DB) (inode_id : Nat) : Nat → Nat → Except String Unit
  | 0, _ => .ok ()
  | fuel + 1, current =>
    if current = 1 then .ok ()
    else if current = inode_id then .error "Cannot move directory into itself"
    else
      match walkStep db current with
      | none => .ok ()
      | some nxt => renameWalk db inode_id fuel nxt

/-- `Database.rename` (database.py lines 505-583): resolve both parents,
require the source entry, refuse an existing target entry; for a move to a
different parent run the upward cycle walk and the root check; then delete
the old entry, append the new one and set the inode's `ctime`. -/
def Database.rename (db : DB) (old_parent_path old_name new_parent_path
    new_name : String) (now fuel : Nat) : Except String DB :=
  match Database.get_inode_by_path db old_parent_path with
  | none => .error "Old parent directory not found"
  | some old_parent_inode =>
    match Database.get_inode_by_path db new_parent_path with
    | none => .error "New parent directory not found"
    | some new_parent_inode =>
      let old_parent_id := old_parent_inode.id
      let new_parent_id := new_parent_inode.id
      match findEntry db old_parent_id old_name with
      | none => .error "Source not found"
      | some inode_id =>
        if (findEntry db new_parent_id new_name).isSome then
          .error "Target already exists"
        else
          let checks : Except String Unit :=
            if old_parent_id ≠ new_parent_id then
              match renameWalk db inode_id fuel new_parent_id with
              | .error e => .error e
              | .ok () =>
                if inode_id = 1 then .error "Cannot move root directory"
                else .ok ()
            else .ok ()
          match checks with
          | .error e => .error e
          | .ok () =>
            .ok { db with
                  entries := db.entries.filter (fun e =>
                      !(e.parent_id == old_parent_id && e.name == old_name)) ++
                    [⟨new_parent_id, new_name, inode_id⟩],
                  inodes := fun j => if j = inode_id then
                    (db.inodes j).map (fun ino => { ino with ctime := now })
                    else db.inodes j }

/-- Kernel error codes used by `sqlitefs.py` (`FuseOSError(errno.X)`). -/
inductive Errno where
  | ENOENT | EEXIST | ENOTEMPTY | EISDIR | ENOTDIR | EINVAL | EBADF | EPERM | Eio
deriving DecidableEq, Repr

/-- A value of the in-memory `open_files` dict (`sqlitefs.py` lines 99-105). -/
structure OpenFile where
  path : String
  inode_id : Nat
  flags : Nat
deriving DecidableEq, Repr

/-- The `SQLiteFS` object state: the database plus the handle counter and
the `open_files` handle table. -/
structure FS where
  db : DB
  fd_counter : Nat
  open_files : Nat → Option OpenFile

/-- `os.O_RDONLY` on Linux: the zero flag value. -/
def O_RDONLY : Nat := 0

/-- `os.O_WRONLY` on Linux. -/
def O_WRONLY : Nat := 1

/-- `os.O_RDWR` on Linux. -/
def O_RDWR : Nat := 2

/-- Python's `pat in s` substring test on strings. -/
def strContains (s pat : String) : Bool :=
  (List.range (s.toList.length + 1)).any
    (fun j => pat.toList.isPrefixOf (s.toList.drop j))

/-- `stat.S_ISDIR`: the file-type bits equal `S_IFDIR = 0o40000`. -/
def S_ISDIR (mode : Nat) : Bool := mode &&& 0o170000 == 0o40000

/-- `os.path.split`: split at the final `/`; the head keeps the slash only
when it consists solely of slashes, otherwise trailing slashes are
stripped. -/
def ospathSplit (p : String) : String × String :=
  let cs := p.toList
  let j := cs.reverse.findIdx (fun c => c == '/')
  let i := if j = cs.length then 0 else cs.length - j
  let head := cs.take i
  let tail := cs.drop i
  let head' := if head ≠ [] ∧ ¬ head.all (fun c => c == '/') then
      (head.reverse.dropWhile (fun c => c == '/')).reverse
    else head
  (head'.asString, tail.asString)

/-- `SQLiteFS._split_path` (sqlitefs.py lines 17-21): `('/', '')` for the
root, otherwise `os.path.split`. -/
def splitPath (path : String) : String × String :=
  if path = "/" then ("/", "") else ospathSplit path

/-- `SQLiteFS.open` (sqlitefs.py lines 109-138): resolve the path (`ENOENT`
when absent), hand out a fresh descriptor, and — only on the non-directory
branch — update `atime` when `flags & O_RDONLY or flags & O_RDWR` is
truthy (`O_RDONLY = 0`, so only the `O_RDWR` test can fire). -/
def SQLiteFS.open (fs : FS) (path : String) (flags now : Nat) :
    Except Errno (Nat × FS) :=
  match Database.get_inode_by_path fs.db path with
  | none => .error .ENOENT
  | some inode =>
    let fd := fs.fd_counter + 1
    let open1 := fun j => if j = fd then
        some { path := path, inode_id := inode.id, flags := flags }
      else fs.open_files j
    if S_ISDIR inode.mode then
      .ok (fd, { fs with fd_counter := fd, open_files := open1 })
    else
      let fs1 : FS := { fs with fd_counter := fd, open_files := open1 }
      if flags &&& O_RDONLY ≠ 0 ∨ flags &&& O_RDWR ≠ 0 then
        .ok (fd, { fs1 with
          db := Database.update_times fs1.db inode.id (some now) none none })
      else .ok (fd, fs1)

/-- `SQLiteFS.read` (sqlitefs.py lines 140-153): `EBADF` for an unknown
handle, otherwise read the bytes and update `atime`. -/
def SQLiteFS.read (fs : FS) (path : String) (length offset fh now : Nat) :
    Except Errno (List Nat × FS) :=
  match fs.open_files fh with
  | none => .error .EBADF
  | some file_info =>
    let data := Database.read_data fs.db file_info.inode_id offset length
    .ok (data, { fs with
      db := Database.update_times fs.db file_info.inode_id (some now) none none })

/-- `SQLiteFS.write` (sqlitefs.py lines 155-168): `EBADF` for an unknown
handle; a database exception becomes `EIO`, otherwise the data is written
and `mtime` updated. -/
def SQLiteFS.write (fs : FS) (path : String) (data : List Nat)
    (offset fh now : Nat) : Except Errno (Nat × FS) :=
  match fs.open_files fh with
  | none => .error .EBADF
  | some file_info =>
    match Database.write_data fs.db file_info.inode_id offset data now with
    | .error _ => .error .Eio
    | .ok (db1, written) =>
      .ok (written, { fs with
        db := Database.update_times db1 file_info.inode_id none (some now) none })

/-- `SQLiteFS.release` (sqlitefs.py lines 170-174): drop the handle when it
is present and return 0 — an unknown handle is silently accepted. -/
def SQLiteFS.release (fs : FS) (path : String) (fh : Nat) : Nat × FS :=
  if (fs.open_files fh).isSome then
    (0, { fs with open_files := (fun j => if j = fh then none else fs.open_files j) })
  else (0, fs)

/-- `SQLiteFS.chmod` (sqlitefs.py lines 210-224): `ENOENT` when the path
does not resolve; otherwise store `(mode & ~0o777) | (new & 0o777)` — on a
non-negative Python int, `mode & ~0o777` is the mode with its 9 low bits
cleared, i.e. `(mode >>> 9) <<< 9`. -/
def SQLiteFS.chmod (fs : FS) (path : String) (mode now : Nat) :
    Except Errno FS :=
  match Database.get_inode_by_path fs.db path with
  | none => .error .ENOENT
  | some inode =>
    let new_mode := ((inode.mode >>> 9) <<< 9) ||| (mode &&& 0o777)
    .ok { fs with db := Database.chmod fs.db inode.id new_mode now }

/-- `SQLiteFS.rename` (sqlitefs.py lines 245-260): split both paths and call
`Database.rename`; the exception handler maps a `Target already exists`
message to `EEXIST`, a `Cannot move directory` message to `EINVAL`, and
every other failure — including all not-found conditions — to `EIO`. -/
def SQLiteFS.rename (fs : FS) (old new : String) (now fuel : Nat) :
    Except Errno FS :=
  let old_dir := (splitPath old).1
  let old_name := (splitPath old).2
  let new_dir := (splitPath new).1
  let new_name := (splitPath new).2
  match Database.rename fs.db old_dir old_name new_dir new_name now fuel with
  | .ok db1 => .ok { fs with db := db1 }
  | .error e =>
    if strContains e "Target already exists" then .error .EEXIST
    else if strContains e "Cannot move directory" then .error .EINVAL
    else .error .Eio

/-! ## Concrete fixtures used by witnesses and counterexamples -/

/-- The root directory inode of the fixture databases. -/
def inoR : Inode := ⟨1, 0o40755, 0, 0, 0, 0, 0, 0, 2⟩

/-- A regular-file inode (id 2, mode `S_IFREG | 0o644`, empty). -/
def inoF : Inode := ⟨2, 0o100644, 0, 0, 0, 5, 5, 5, 1⟩

/-- A fixture database: the bootstrap root plus one empty regular file
`/f`, no stored chunks. -/
def dbW : DB :=
  { inodes := fun j => if j = 1 then some inoR else if j = 2 then some inoF else none,
    entries := [⟨1, ".", 1⟩, ⟨1, "..", 1⟩, ⟨1, "f", 2⟩],
    chunks := fun _ _ => none,
    nextId := 3 }

/-- The parent of `x` according to its stored `..` entry (the spec's notion
of walking upward used by the rename cycle check). -/
def parentOf (db : DB) (x : Nat) : Option Nat := findEntry db x ".."

/-- Iterate `parentOf` `j` times starting from a node. -/
def upChain (db : DB) : Nat → Nat → Option Nat
  | c, 0 => some c
  | c, j + 1 =>
    match parentOf db c with
    | none => none
    | some p => upChain db p j

/-- Physical layout invariant: for any inode `par` that some `..` entry
points to, the first `entries` row with `parent_id = par` is `par`'s own
`.` row `(par, '.', par)` — maintained by the program because
`create_entry` inserts a directory's `.` row before any of its children,
so the join in `Database.rename` returns the true parent. -/
def dotRowsFirst (db : DB) : Prop :=
  ∀ e ∈ db.entries, e.name = ".." →
    db.entries.find? (fun e' => e'.parent_id == e.inode_id) =
      some ⟨e.inode_id, ".", e.inode_id⟩

/-- A directory inode (id 2, mode `S_IFDIR | 0o755`, fresh). -/
def inoD : Inode := ⟨2, 0o40755, 0, 0, 0, 0, 0, 0, 2⟩

/-- A fixture database: the bootstrap root plus one empty directory `/a`. -/
def dbD : DB :=
  { inodes := fun j => if j = 1 then some inoR else if j = 2 then some inoD else none,
    entries := [⟨1, ".", 1⟩, ⟨1, "..", 1⟩, ⟨1, "a", 2⟩, ⟨2, ".", 2⟩, ⟨2, "..", 1⟩],
    chunks := fun _ _ => none,
    nextId := 3 }

/-- A fixture filesystem object over `dbW` with no open handles. -/
def fsW : FS := { db := dbW, fd_counter := 0, open_files := fun _ => none }

/-- A regular-file inode with id 3, used as a child of the directory. -/
def inoF3 : Inode := ⟨3, 0o100644, 0, 0, 0, 5, 5, 5, 1⟩

/-- A fixture database: the root, a directory `/a`, and a file `/a/f`. -/
def dbD2 : DB :=
  { inodes := fun j => if j = 1 then some inoR else if j = 2 then some inoD
      else if j = 3 then some inoF3 else none,
    entries := [⟨1, ".", 1⟩, ⟨1, "..", 1⟩, ⟨1, "a", 2⟩, ⟨2, ".", 2⟩,
      ⟨2, "..", 1⟩, ⟨2, "f", 3⟩],
    chunks := fun _ _ => none,
    nextId := 4 }

/-! ## Chunk-store lemmas -/

/-- Under the data-model invariant that stored blobs are at most
`CHUNK_SIZE` bytes, the buffer `write_data` starts from is exactly
`CHUNK_SIZE` bytes long. -/
lemma chunkBase_length (m : ChunkMap) (i k : Nat)
    (hb : ∀ d, m i k = some d → d.length ≤ CHUNK_SIZE) :
    (chunkBase m i k).length = CHUNK_SIZE := by
  unfold chunkBase
  cases h : m i k with
  | none => simp
  | some d =>
    have := hb d h
    simp
    omega

/-- The write loop never touches chunks below its running index. -/
lemma writeChunks_lt (i : Nat) (data : List Nat) (offset : Nat) :
    ∀ n k pos m j, j < k → writeChunks i data offset k n pos m i j = m i j := by
  intro n
  induction n with
  | zero => intro k pos m j _; rfl
  | succ n ih =>
    intro k pos m j hj
    simp only [writeChunks]
    split
    · exact ih (k + 1) pos m j (Nat.lt_succ_of_lt hj)
    · rw [ih (k + 1) _ _ j (Nat.lt_succ_of_lt hj)]
      have : ¬ (j = k) := Nat.ne_of_lt hj
      simp [this]

/-- The write loop leaves every other inode's chunks unchanged. -/
lemma writeChunks_ne (i : Nat) (data : List Nat) (offset : Nat) :
    ∀ n k pos m i' j, i' ≠ i → writeChunks i data offset k n pos m i' j = m i' j := by
  intro n
  induction n with
  | zero => intro k pos m i' j _; rfl
  | succ n ih =>
    intro k pos m i' j hi
    simp only [writeChunks]
    split
    · exact ih (k + 1) pos m i' j hi
    · rw [ih (k + 1) _ _ i' j hi]
      simp [hi]
/-- Unfolding of one productive iteration of the write loop. -/
lemma writeChunks_succ_eq (i : Nat) (data : List Nat) (offset k n pos : Nat)
    (m : ChunkMap)
    (hov : max offset (k * CHUNK_SIZE) <
      min (offset + data.length) ((k + 1) * CHUNK_SIZE)) :
    writeChunks i data offset k (n + 1) pos m =
      writeChunks i data offset (k + 1) n
        (pos + (min (offset + data.length) ((k + 1) * CHUNK_SIZE) -
          max offset (k * CHUNK_SIZE)))
        (fun i' k' => if i' = i ∧ k' = k then
          some ((chunkBase m i k).take
              (max offset (k * CHUNK_SIZE) - k * CHUNK_SIZE) ++
            ((data.drop pos).take
                (min (offset + data.length) ((k + 1) * CHUNK_SIZE) -
                  max offset (k * CHUNK_SIZE)) ++
              (chunkBase m i k).drop
                ((max offset (k * CHUNK_SIZE) - k * CHUNK_SIZE) +
                  (min (offset + data.length) ((k + 1) * CHUNK_SIZE) -
                    max offset (k * CHUNK_SIZE)))))
          else m i' k') := by
  conv_lhs => rw [writeChunks]
  rw [if_neg (Nat.not_le.mpr hov)]

/-- Unfolding of one iteration of the read loop over a non-empty stored
chunk. -/
lemma readChunks_succ_eq (i : Nat) (m : ChunkMap) (S offset L k n : Nat)
    (d : List Nat) (hmk : m i k = some d) (hd : d ≠ []) :
    readChunks i m S offset L k (n + 1) =
      (if max offset (k * CHUNK_SIZE) <
          min (offset + L) (min (k * CHUNK_SIZE + d.length) S) then
        (d.drop (max offset (k * CHUNK_SIZE) - k * CHUNK_SIZE)).take
          (min (offset + L) (min (k * CHUNK_SIZE + d.length) S) -
            max offset (k * CHUNK_SIZE))
      else []) ++ readChunks i m S offset L (k + 1) n := by
  conv_lhs => rw [readChunks]
  rw [hmk]
  simp only [if_neg hd]

/-- Core round-trip invariant: running the read loop over the state left by
the write loop recovers exactly the part of the data not yet consumed at
`data_pos = pos`, provided stored chunks respect the `CHUNK_SIZE` bound and
the file size covers the written range. -/
lemma readChunks_writeChunks (i : Nat) (data : List Nat) (offset S : Nat)
    (hd : 0 < data.length) (hS : offset + data.length ≤ S) :
    ∀ n k pos m,
      (∀ t d, m i t = some d → d.length ≤ CHUNK_SIZE) →
      offset / CHUNK_SIZE ≤ k →
      k + n = (offset + data.length - 1) / CHUNK_SIZE + 1 →
      pos + offset = min (max offset (k * CHUNK_SIZE)) (offset + data.length) →
      readChunks i (writeChunks i data offset k n pos m) S offset data.length k n
        = data.drop pos := by
  intro n
  induction n with
  | zero =>
    intro k pos m _ hk1 hk2 hpos
    have hpn : data.length ≤ pos := by
      simp only [CHUNK_SIZE] at *
      omega
    simp [readChunks, List.drop_eq_nil_of_le hpn]
  | succ n ih =>
    intro k pos m hb hk1 hk2 hpos
    have hov : max offset (k * CHUNK_SIZE) <
        min (offset + data.length) ((k + 1) * CHUNK_SIZE) := by
      simp only [CHUNK_SIZE] at *
      omega
    rw [writeChunks_succ_eq i data offset k n pos m hov]
    have hbase : (chunkBase m i k).length = CHUNK_SIZE :=
      chunkBase_length m i k (fun d h => hb k d h)
    have hwl : pos + (min (offset + data.length) ((k + 1) * CHUNK_SIZE) -
        max offset (k * CHUNK_SIZE)) ≤ data.length := by
      simp only [CHUNK_SIZE] at *
      omega
    have hslice : ((data.drop pos).take
        (min (offset + data.length) ((k + 1) * CHUNK_SIZE) -
          max offset (k * CHUNK_SIZE))).length =
        min (offset + data.length) ((k + 1) * CHUNK_SIZE) -
          max offset (k * CHUNK_SIZE) := by
      rw [List.length_take, List.length_drop]
      omega
    have htk : ((chunkBase m i k).take
        (max offset (k * CHUNK_SIZE) - k * CHUNK_SIZE)).length =
        max offset (k * CHUNK_SIZE) - k * CHUNK_SIZE := by
      rw [List.length_take]
      simp only [CHUNK_SIZE] at *
      omega
    have hnc_len :
        ((chunkBase m i k).take (max offset (k * CHUNK_SIZE) - k * CHUNK_SIZE) ++
          ((data.drop pos).take
              (min (offset + data.length) ((k + 1) * CHUNK_SIZE) -
                max offset (k * CHUNK_SIZE)) ++
            (chunkBase m i k).drop
              ((max offset (k * CHUNK_SIZE) - k * CHUNK_SIZE) +
                (min (offset + data.length) ((k + 1) * CHUNK_SIZE) -
                  max offset (k * CHUNK_SIZE))))).length = CHUNK_SIZE := by
      simp only [List.length_append, List.length_take, List.length_drop,
        hbase]
      simp only [CHUNK_SIZE] at *
      omega
    have hnc_ne :
        ((chunkBase m i k).take (max offset (k * CHUNK_SIZE) - k * CHUNK_SIZE) ++
          ((data.drop pos).take
              (min (offset + data.length) ((k + 1) * CHUNK_SIZE) -
                max offset (k * CHUNK_SIZE)) ++
            (chunkBase m i k).drop
              ((max offset (k * CHUNK_SIZE) - k * CHUNK_SIZE) +
                (min (offset + data.length) ((k + 1) * CHUNK_SIZE) -
                  max offset (k * CHUNK_SIZE))))) ≠ [] := by
      intro h
      rw [h] at hnc_len
      simp only [List.length_nil, CHUNK_SIZE] at hnc_len
      omega
    have hfk : (writeChunks i data offset (k + 1) n
        (pos + (min (offset + data.length) ((k + 1) * CHUNK_SIZE) -
          max offset (k * CHUNK_SIZE)))
        (fun i' k' => if i' = i ∧ k' = k then
          some ((chunkBase m i k).take
              (max offset (k * CHUNK_SIZE) - k * CHUNK_SIZE) ++
            ((data.drop pos).take
                (min (offset + data.length) ((k + 1) * CHUNK_SIZE) -
                  max offset (k * CHUNK_SIZE)) ++
              (chunkBase m i k).drop
                ((max offset (k * CHUNK_SIZE) - k * CHUNK_SIZE) +
                  (min (offset + data.length) ((k + 1) * CHUNK_SIZE) -
                    max offset (k * CHUNK_SIZE)))))
          else m i' k')) i k =
        some ((chunkBase m i k).take
            (max offset (k * CHUNK_SIZE) - k * CHUNK_SIZE) ++
          ((data.drop pos).take
              (min (offset + data.length) ((k + 1) * CHUNK_SIZE) -
                max offset (k * CHUNK_SIZE)) ++
            (chunkBase m i k).drop
              ((max offset (k * CHUNK_SIZE) - k * CHUNK_SIZE) +
                (min (offset + data.length) ((k + 1) * CHUNK_SIZE) -
                  max offset (k * CHUNK_SIZE))))) := by
      rw [writeChunks_lt i data offset n (k + 1) _ _ k (Nat.lt_succ_self k)]
      simp
    rw [readChunks_succ_eq i _ S offset data.length k n _ hfk hnc_ne]
    rw [hnc_len]
    have hre : min (offset + data.length) (min (k * CHUNK_SIZE + CHUNK_SIZE) S) =
        min (offset + data.length) ((k + 1) * CHUNK_SIZE) := by
      simp only [CHUNK_SIZE] at *
      omega
    rw [hre]
    rw [if_pos hov]
    rw [List.drop_left' htk]
    rw [List.take_left' hslice]
    rw [ih (k + 1)
      (pos + (min (offset + data.length) ((k + 1) * CHUNK_SIZE) -
        max offset (k * CHUNK_SIZE))) _ ?hb ?hk1 ?hk2 ?hpos]
    case hb =>
      intro t d hmt
      by_cases ht : t = k
      · subst ht
        simp at hmt
        subst hmt
        exact le_of_eq hnc_len
      · simp only [ht, and_false, if_false] at hmt
        exact hb t d hmt
    case hk1 => omega
    case hk2 => omega
    case hpos =>
      simp only [CHUNK_SIZE] at *
      omega
    have hdd : data.drop (pos + (min (offset + data.length) ((k + 1) * CHUNK_SIZE) -
        max offset (k * CHUNK_SIZE))) =
        (data.drop pos).drop (min (offset + data.length) ((k + 1) * CHUNK_SIZE) -
          max offset (k * CHUNK_SIZE)) := by
      rw [List.drop_drop]
    rw [hdd, List.take_append_drop]
/-- Reading `[0, N)` of an `N`-byte file with no stored chunks yields only
zeros: every covering chunk is synthesized by `holeBytes`. -/
lemma readChunks_hole (i : Nat) (m : ChunkMap) (N : Nat) (hN : 0 < N)
    (hm : ∀ k, m i k = none) :
    ∀ n k, k + n = (N - 1) / CHUNK_SIZE + 1 →
      readChunks i m N 0 N k n = List.replicate (N - k * CHUNK_SIZE) 0 := by
  intro n
  induction n with
  | zero =>
    intro k hk
    have h0 : N - k * CHUNK_SIZE = 0 := by
      simp only [CHUNK_SIZE] at *
      omega
    simp [readChunks, h0]
  | succ n ih =>
    intro k hk
    have hkN : k * CHUNK_SIZE < N := by
      simp only [CHUNK_SIZE] at *
      omega
    simp only [readChunks, hm k, holeBytes, List.length_replicate]
    rw [ih (k + 1) (by omega)]
    have hcond : max 0 (k * CHUNK_SIZE) <
        min (0 + N) (min (k * CHUNK_SIZE +
          (min (k * CHUNK_SIZE + CHUNK_SIZE) N - k * CHUNK_SIZE)) N) := by
      simp only [CHUNK_SIZE] at *
      omega
    rw [if_pos hcond]
    rw [List.drop_replicate, List.take_replicate]
    rw [show (List.replicate (min (min (0 + N) (min (k * CHUNK_SIZE +
        (min (k * CHUNK_SIZE + CHUNK_SIZE) N - k * CHUNK_SIZE)) N) -
        max 0 (k * CHUNK_SIZE))
        (min (k * CHUNK_SIZE + CHUNK_SIZE) N - k * CHUNK_SIZE -
          (max 0 (k * CHUNK_SIZE) - k * CHUNK_SIZE))) (0 : Nat)) =
      List.replicate (min (k * CHUNK_SIZE + CHUNK_SIZE) N - k * CHUNK_SIZE) (0 : Nat) from by
        congr 1
        simp only [CHUNK_SIZE] at *
        omega]
    rw [← List.replicate_add]
    congr 1
    simp only [CHUNK_SIZE] at *
    omega

lemma read_data_some (db : DB) (i offset length : Nat) (ino : Inode)
    (h : db.inodes i = some ino) (hlt : offset < ino.size) :
    Database.read_data db i offset length =
      readChunks i db.chunks ino.size offset (min length (ino.size - offset))
        (offset / CHUNK_SIZE)
        ((offset + min length (ino.size - offset) - 1) / CHUNK_SIZE + 1 -
          offset / CHUNK_SIZE) := by
  unfold Database.read_data
  rw [h]
  show (if ino.size ≤ offset then ([] : List Nat) else
      readChunks i db.chunks ino.size offset (min length (ino.size - offset))
        (offset / CHUNK_SIZE)
        ((offset + min length (ino.size - offset) - 1) / CHUNK_SIZE + 1 -
          offset / CHUNK_SIZE)) = _
  rw [if_neg (Nat.not_le.mpr hlt)]

/-- C1: for every existing inode `i`, every non-empty byte string `bytes`
and every offset, immediately after `write_data(i, offset, bytes)` succeeds,
`read_data(i, offset, len(bytes))` returns exactly `bytes`, and the stored
size of `i` is at least `offset + len(bytes)`.  (The hypothesis on
`db.chunks` is the data-model invariant that stored blobs never exceed
`CHUNK_SIZE` bytes, which every operation of the program preserves.) -/
theorem write_read_roundtrip (db : DB) (i offset now : Nat) (data : List Nat)
    (ino : Inode) (hino : db.inodes i = some ino)
    (hchunks : ∀ k d, db.chunks i k = some d → d.length ≤ CHUNK_SIZE)
    (hdata : data ≠ []) :
    ∃ db', Database.write_data db i offset data now = .ok (db', data.length) ∧
      (∃ ino', db'.inodes i = some ino' ∧ offset + data.length ≤ ino'.size) ∧
      Database.read_data db' i offset data.length = data := by
  have hL : 0 < data.length := List.length_pos.mpr hdata
  simp only [Database.write_data, hino]
  refine ⟨_, rfl,
    ⟨{ ino with size := max ino.size (offset + data.length), mtime := now },
      by simp, Nat.le_max_right _ _⟩, ?_⟩
  rw [read_data_some _ i offset data.length
    { ino with size := max ino.size (offset + data.length), mtime := now }
    (by simp) (by show offset < max ino.size (offset + data.length); omega)]
  show readChunks i
      (writeChunks i data offset (offset / CHUNK_SIZE)
        ((offset + data.length - 1) / CHUNK_SIZE + 1 - offset / CHUNK_SIZE) 0
        db.chunks) _ offset _ _ _ = data
  have hmin : min data.length (max ino.size (offset + data.length) - offset)
      = data.length := by omega
  rw [hmin]
  rw [readChunks_writeChunks i data offset (max ino.size (offset + data.length))
    hL (Nat.le_max_right _ _) _ _ 0 db.chunks hchunks (Nat.le_refl _)
    (by simp only [CHUNK_SIZE]; omega) (by simp only [CHUNK_SIZE]; omega)]
  exact List.drop_zero data

/-- Witness for `write_read_roundtrip`: writing `[7, 8, 9]` at offset 5 into
the empty file of the fixture database. -/
theorem write_read_roundtrip_witness :
    ∃ db', Database.write_data dbW 2 5 [7, 8, 9] 11 = .ok (db', 3) ∧
      (∃ ino', db'.inodes 2 = some ino' ∧ 5 + 3 ≤ ino'.size) ∧
      Database.read_data db' 2 5 3 = [7, 8, 9] :=
  write_read_roundtrip dbW 2 5 11 [7, 8, 9] inoF rfl
    (by intro k d h; simp [dbW] at h) (by decide)
/-- C5: for every existing regular-file inode `i` with size 0 and no chunks
and every `N > 0`, after `truncate(i, N)`: no chunk rows exist for `i`, the
stored size of `i` is `N`, and `read_data(i, 0, N)` returns `N` zero bytes. -/
theorem truncate_up_holes (db : DB) (i N now : Nat) (ino : Inode)
    (hino : db.inodes i = some ino)
    (hreg : ino.mode &&& 0o170000 = 0o100000)
    (hsz : ino.size = 0) (hch : ∀ k, db.chunks i k = none) (hN : 0 < N) :
    ∃ db', Database.truncate db i N now = .ok db' ∧
      (∀ k, db'.chunks i k = none) ∧
      db'.inodes i = some { ino with size := N, mtime := now } ∧
      Database.read_data db' i 0 N = List.replicate N 0 := by
  simp only [Database.truncate, hino, hsz]
  rw [if_neg (Nat.not_lt_zero N)]
  rw [if_neg (by simp)]
  refine ⟨_, rfl, ?_, by simp, ?_⟩
  · intro k
    exact hch k
  · rw [read_data_some _ i 0 N { ino with size := N, mtime := now }
      (by simp) (by simpa using hN)]
    show readChunks i db.chunks N 0 _ _ _ = _
    simp only [Nat.zero_add, Nat.sub_zero, Nat.min_self, Nat.zero_div]
    rw [readChunks_hole i db.chunks N hN hch ((N - 1) / CHUNK_SIZE + 1) 0
      (by simp only [CHUNK_SIZE]; omega)]
    simp

/-- Witness for `truncate_up_holes`: growing the empty fixture file to 5000
bytes (crossing a chunk boundary). -/
theorem truncate_up_holes_witness :
    ∃ db', Database.truncate dbW 2 5000 9 = .ok db' ∧
      (∀ k, db'.chunks 2 k = none) ∧
      db'.inodes 2 = some { inoF with size := 5000, mtime := 9 } ∧
      Database.read_data db' 2 0 5000 = List.replicate 5000 0 :=
  truncate_up_holes dbW 2 5000 9 inoF rfl (by decide) rfl (fun _ => rfl)
    (by decide)
/-- Under `dotRowsFirst`, the join-based parent query of `Database.rename`
agrees with the `..` entry. -/
lemma walkStep_eq_parentOf (db : DB) (hdot : dotRowsFirst db) (c par : Nat)
    (h : parentOf db c = some par) : walkStep db c = some par := by
  unfold walkStep
  unfold parentOf at h
  rw [h]
  unfold findEntry at h
  cases he : db.entries.find? (fun e => e.parent_id == c && e.name == "..") with
  | none => rw [he] at h; simp at h
  | some e0 =>
    rw [he] at h
    simp only [Option.map_some'] at h
    have hmem : e0 ∈ db.entries := List.mem_of_find?_eq_some he
    have hp := List.find?_some he
    simp only [Bool.and_eq_true, beq_iff_eq] at hp
    have hpar : e0.inode_id = par := by simpa using h
    have := hdot e0 hmem hp.2
    rw [hpar] at this
    show Option.map (fun e => e.inode_id)
      (List.find? (fun e' => e'.parent_id == par) db.entries) = some par
    rw [this]
    rfl

/-- If the `..` chain from `p` meets `d` after `j` steps without first
reaching the root, the cycle-detection loop of `Database.rename` raises
`Cannot move directory into itself` (given fuel beyond `j`). -/
lemma renameWalk_hits (db : DB) (hdot : dotRowsFirst db) (d : Nat) :
    ∀ j p fuel, upChain db p j = some d →
      (∀ i, i ≤ j → upChain db p i ≠ some 1) → j < fuel →
      renameWalk db d fuel p = .error "Cannot move directory into itself" := by
  intro j
  induction j with
  | zero =>
    intro p fuel h h1 hf
    obtain ⟨fuel, rfl⟩ : ∃ f, fuel = f + 1 := ⟨fuel - 1, by omega⟩
    have hp : p = d := by simpa [upChain] using h
    have hp1 : p ≠ 1 := by
      intro h1p
      exact h1 0 (Nat.le_refl 0) (by simp [upChain, h1p])
    subst hp
    simp [renameWalk, hp1]
  | succ j ih =>
    intro p fuel h h1 hf
    obtain ⟨fuel, rfl⟩ : ∃ f, fuel = f + 1 := ⟨fuel - 1, by omega⟩
    have hp1 : p ≠ 1 := by
      intro h1p
      exact h1 0 (Nat.zero_le _) (by simp [upChain, h1p])
    cases hq : parentOf db p with
    | none => rw [upChain, hq] at h; simp at h
    | some q =>
      rw [upChain, hq] at h
      by_cases hpd : p = d
      · subst hpd
        simp [renameWalk, hp1]
      · have hstep := walkStep_eq_parentOf db hdot p q hq
        rw [renameWalk, if_neg hp1, if_neg hpd, hstep]
        exact ih q fuel h
          (fun i hi => by
            have := h1 (i + 1) (by omega)
            rw [upChain, hq] at this
            exact this)
          (by omega)
/-- C3: for a directory `d` whose destination parent lies inside `d`'s own
subtree — the `..` chain from the new parent reaches `d` after `j` steps
without first hitting the root — `rename` fails with the InvalidArgument
error `Cannot move directory into itself`, and (the transaction rolling
back) the entries table is unchanged.  `dotRowsFirst` is the stored-layout
invariant making the code's parent join follow the `..` entries. -/
theorem rename_into_subtree_fails (db : DB)
    (old_parent_path old_name new_parent_path new_name : String)
    (now fuel : Nat) (opi npi : Inode) (d j : Nat)
    (hop : Database.get_inode_by_path db old_parent_path = some opi)
    (hnp : Database.get_inode_by_path db new_parent_path = some npi)
    (hsrc : findEntry db opi.id old_name = some d)
    (htgt : findEntry db npi.id new_name = none)
    (hne : opi.id ≠ npi.id)
    (hdot : dotRowsFirst db)
    (hj : upChain db npi.id j = some d)
    (hj1 : ∀ i, i ≤ j → upChain db npi.id i ≠ some 1)
    (hfuel : j < fuel) :
    Database.rename db old_parent_path old_name new_parent_path new_name
      now fuel = .error "Cannot move directory into itself" := by
  simp only [Database.rename, hop, hnp, hsrc, htgt]
  rw [if_neg (by simp)]
  rw [if_pos hne]
  rw [renameWalk_hits db hdot d j npi.id fuel hj hj1 hfuel]
/-- Witness for `rename_into_subtree_fails`: `Rename("/a", "/a/b")` with
`/a` a directory, on the directory fixture. -/
theorem rename_into_subtree_fails_witness :
    Database.rename dbD "/" "a" "/a" "b" 7 1 =
      .error "Cannot move directory into itself" :=
  rename_into_subtree_fails dbD "/" "a" "/a" "b" 7 1 inoR inoD 2 0
    rfl (by decide) (by decide) (by decide) (by decide)
    (by unfold dotRowsFirst; decide) rfl (by decide) (by decide)

/-- C2 counterexample: on the file fixture, a rename whose source and
destination coincide does *not* succeed — the pre-insert target check sees
the source row itself and raises `Target already exists`. -/
theorem rename_same_path_counterexample :
    Database.rename dbW "/" "f" "/" "f" 7 5 =
      .error "Target already exists" := by rfl

/-- C2 (amended): for every existing entry `(parent, name)`, a rename whose
source and destination are identical fails with the AlreadyExists error
`Target already exists` (the target-row check runs before the delete and
finds the source row itself); the transaction rolls back, so the entries
table is unchanged. -/
theorem rename_same_path_fails (db : DB) (p n : String) (now fuel : Nat)
    (pino : Inode) (src : Nat)
    (hp : Database.get_inode_by_path db p = some pino)
    (hsrc : findEntry db pino.id n = some src) :
    Database.rename db p n p n now fuel = .error "Target already exists" := by
  simp only [Database.rename, hp, hsrc]
  rw [if_pos (by simp)]

/-- Witness for `rename_same_path_fails` on the file fixture. -/
theorem rename_same_path_fails_witness :
    Database.rename dbW "/" "f" "/" "f" 7 5 =
      .error "Target already exists" :=
  rename_same_path_fails dbW "/" "f" 7 5 inoR 2 rfl (by decide)
/-- C4 counterexample: renaming under a missing parent directory returns
`EIO`, not `ENOENT` — the rename exception handler only recognizes the
target-exists and subtree messages. -/
theorem rename_notfound_counterexample :
    SQLiteFS.rename fsW "/nope/x" "/y" 7 5 = .error .Eio ∧
      Errno.Eio ≠ Errno.ENOENT := ⟨by rfl, by decide⟩

/-- C4 (amended): whenever the database layer raises a not-found condition
inside `rename` — old parent missing, new parent missing, or source entry
missing — the kernel-visible `rename` returns `EIO` (not `ENOENT`): its
handler maps only the `Target already exists` and `Cannot move directory`
messages, and everything else falls through to `EIO`. -/
theorem rename_notfound_maps_to_eio (fs : FS) (old new : String)
    (now fuel : Nat)
    (h : Database.get_inode_by_path fs.db (splitPath old).1 = none ∨
      (∃ opi, Database.get_inode_by_path fs.db (splitPath old).1 = some opi ∧
        Database.get_inode_by_path fs.db (splitPath new).1 = none) ∨
      (∃ opi npi,
        Database.get_inode_by_path fs.db (splitPath old).1 = some opi ∧
        Database.get_inode_by_path fs.db (splitPath new).1 = some npi ∧
        findEntry fs.db opi.id (splitPath old).2 = none)) :
    SQLiteFS.rename fs old new now fuel = .error .Eio := by
  unfold SQLiteFS.rename
  rcases h with h1 | ⟨opi, h1, h2⟩ | ⟨opi, npi, h1, h2, h3⟩
  · simp only [Database.rename, h1]
    rw [if_neg (by decide), if_neg (by decide)]
  · simp only [Database.rename, h1, h2]
    rw [if_neg (by decide), if_neg (by decide)]
  · simp only [Database.rename, h1, h2, h3]
    rw [if_neg (by decide), if_neg (by decide)]

/-- Witness for `rename_notfound_maps_to_eio`: the missing-old-parent case
on the fixture. -/
theorem rename_notfound_maps_to_eio_witness :
    SQLiteFS.rename fsW "/a/x" "/y" 7 5 = .error .Eio :=
  rename_notfound_maps_to_eio fsW "/a/x" "/y" 7 5 (Or.inl (by decide))
/-- C9 counterexample: `release` with a handle absent from the handle table
does not fail with `EBADF` — it returns 0 with the state unchanged (its
embedding `SQLiteFS.release` cannot raise at all: `sqlitefs.py` line 172
only guards the deletion with `if fh in self.open_files`). -/
theorem release_bad_handle_counterexample :
    SQLiteFS.release fsW "/f" 7 = (0, fsW) := by rfl

/-- C9 (amended): with a handle absent from the handle table, `read` and
`write` fail with `EBADF` before touching any state, while `release`
silently succeeds, returning 0 and leaving the filesystem and handle table
unchanged. -/
theorem bad_handle_behavior (fs : FS) (path : String)
    (length offset fh now : Nat) (data : List Nat)
    (h : fs.open_files fh = none) :
    SQLiteFS.read fs path length offset fh now = .error .EBADF ∧
    SQLiteFS.write fs path data offset fh now = .error .EBADF ∧
    SQLiteFS.release fs path fh = (0, fs) := by
  refine ⟨?_, ?_, ?_⟩ <;>
    simp [SQLiteFS.read, SQLiteFS.write, SQLiteFS.release, h]

/-- Witness for `bad_handle_behavior` on the fixture (empty handle table). -/
theorem bad_handle_behavior_witness :
    SQLiteFS.read fsW "/f" 4 0 7 9 = .error .EBADF ∧
    SQLiteFS.write fsW "/f" [1] 0 7 9 = .error .EBADF ∧
    SQLiteFS.release fsW "/f" 7 = (0, fsW) :=
  bad_handle_behavior fsW "/f" 4 0 7 9 [1] rfl
lemma testBit_61440 (j : Nat) :
    Nat.testBit 61440 j = (decide (12 ≤ j) && decide (j - 12 < 4)) := by
  rw [show (61440 : Nat) = 15 <<< 12 from rfl, Nat.testBit_shiftLeft,
    show (15 : Nat) = 2 ^ 4 - 1 from rfl, Nat.testBit_two_pow_sub_one]

lemma testBit_511 (j : Nat) : Nat.testBit 511 j = decide (j < 9) := by
  rw [show (511 : Nat) = 2 ^ 9 - 1 from rfl, Nat.testBit_two_pow_sub_one]

/-- Replacing the 9 low bits of `m` by those of `r` preserves the
`S_IFMT = 0o170000` file-type field. -/
lemma lowbits_replace_type_mask (m r : Nat) :
    (((m >>> 9) <<< 9) ||| (r &&& 511)) &&& 61440 = m &&& 61440 := by
  apply Nat.eq_of_testBit_eq
  intro j
  simp only [Nat.testBit_and, Nat.testBit_or, Nat.testBit_shiftLeft,
    Nat.testBit_shiftRight, testBit_61440, testBit_511]
  by_cases h12 : 12 ≤ j ∧ j - 12 < 4
  · have d1 : decide (12 ≤ j) = true := decide_eq_true h12.1
    have d2 : decide (j - 12 < 4) = true := decide_eq_true h12.2
    have d3 : decide (j ≥ 9) = true := decide_eq_true (by omega)
    have d4 : decide (j < 9) = false := decide_eq_false (by omega)
    have h9j : 9 + (j - 9) = j := by omega
    rw [d1, d2, d3, d4, h9j]
    simp
  · have hf : (decide (12 ≤ j) && decide (j - 12 < 4)) = false := by
      by_cases ha : 12 ≤ j
      · have hb : ¬ (j - 12 < 4) := fun hb => h12 ⟨ha, hb⟩
        simp [decide_eq_false hb]
      · simp [decide_eq_false ha]
    rw [hf]
    simp

/-- Replacing the 9 low bits of `m` by those of `r` installs exactly `r`'s
permission bits. -/
lemma lowbits_replace_perm_mask (m r : Nat) :
    (((m >>> 9) <<< 9) ||| (r &&& 511)) &&& 511 = r &&& 511 := by
  apply Nat.eq_of_testBit_eq
  intro j
  simp only [Nat.testBit_and, Nat.testBit_or, Nat.testBit_shiftLeft,
    Nat.testBit_shiftRight, testBit_61440, testBit_511]
  by_cases h9 : j < 9
  · have d1 : decide (j < 9) = true := decide_eq_true h9
    have d2 : decide (j ≥ 9) = false := decide_eq_false (by omega)
    rw [d1, d2]
    simp
  · have d1 : decide (j < 9) = false := decide_eq_false h9
    rw [d1]
    simp
/-- C7: `chmod` leaves the file-type bits (`S_IFMT = 0o170000`) of the
stored mode unchanged and replaces only the 9 low permission bits with
those of the requested mode. (`hself` is the schema invariant that the
row found by path resolution is stored under its own `id`.) -/
theorem chmod_preserves_type (fs : FS) (path : String) (mode now : Nat)
    (ino : Inode) (hres : Database.get_inode_by_path fs.db path = some ino)
    (hself : fs.db.inodes ino.id = some ino) :
    ∃ fs', SQLiteFS.chmod fs path mode now = .ok fs' ∧
      ∃ ino', fs'.db.inodes ino.id = some ino' ∧
        ino'.mode &&& 0o170000 = ino.mode &&& 0o170000 ∧
        ino'.mode &&& 0o777 = mode &&& 0o777 := by
  simp only [SQLiteFS.chmod, hres]
  refine ⟨_, rfl,
    ⟨⟨ino.id, ((ino.mode >>> 9) <<< 9) ||| (mode &&& 0o777), ino.uid, ino.gid,
      ino.size, ino.atime, ino.mtime, now, ino.nlink⟩, ?_, ?_, ?_⟩⟩
  · simp [Database.chmod, hself]
  · exact lowbits_replace_type_mask ino.mode mode
  · exact lowbits_replace_perm_mask ino.mode mode

/-- Witness for `chmod_preserves_type`: `chmod("/f", 0o777)` on the regular
file of the fixture; the type bits still read `S_IFREG`. -/
theorem chmod_preserves_type_witness :
    ∃ fs', SQLiteFS.chmod fsW "/f" 0o777 9 = .ok fs' ∧
      ∃ ino', fs'.db.inodes 2 = some ino' ∧
        ino'.mode &&& 0o170000 = inoF.mode &&& 0o170000 ∧
        ino'.mode &&& 0o777 = 0o777 &&& 0o777 :=
  chmod_preserves_type fsW "/f" 0o777 9 inoF (by decide) rfl
/-- C8 (code bug): `open` of a regular file with `O_RDONLY` — a read-access
flag value — leaves `atime` untouched, because `flags & os.O_RDONLY` is
always 0 (`O_RDONLY = 0`), making that half of the check dead code; only
`O_RDWR` triggers the update. The second conjunct shows the `O_RDWR` path
does update `atime`, confirming the intent of the check. -/
theorem open_rdonly_atime_bug :
    (∃ fs', SQLiteFS.open fsW "/f" O_RDONLY 99 = .ok (1, fs') ∧
      fs'.db.inodes 2 = some inoF ∧ inoF.atime = 5) ∧
    (∃ fs', SQLiteFS.open fsW "/f" O_RDWR 99 = .ok (1, fs') ∧
      fs'.db.inodes 2 = some { inoF with atime := 99 }) :=
  ⟨⟨_, by rfl, by rfl, by rfl⟩, ⟨_, by rfl, by rfl⟩⟩
/-- C6: removing the last directory entry referencing a non-directory inode
(`nlink` falling to ≤ 0) deletes the entry, the inode row and all of the
inode's chunk rows; and `remove_entry` on a directory that still contains
an entry other than `.`/`..` fails with `Directory not empty` (rolling the
transaction back). -/
theorem remove_entry_last_link_and_notempty :
    (∀ (db : DB) (parent_path name : String) (pino : Inode) (i : Nat)
        (ino : Inode),
      Database.get_inode_by_path db parent_path = some pino →
      findEntry db pino.id name = some i →
      db.inodes i = some ino →
      ino.mode &&& 0o40000 = 0 →
      ino.nlink ≤ 1 →
      ∃ db', Database.remove_entry db parent_path name = .ok db' ∧
        db'.inodes i = none ∧
        (∀ k, db'.chunks i k = none) ∧
        (∀ e ∈ db'.entries, e.inode_id ≠ i) ∧
        findEntry db' pino.id name = none) ∧
    (∀ (db : DB) (parent_path name : String) (pino : Inode) (i : Nat)
        (ino : Inode) (e : Entry),
      Database.get_inode_by_path db parent_path = some pino →
      findEntry db pino.id name = some i →
      db.inodes i = some ino →
      ino.mode &&& 0o40000 ≠ 0 →
      e ∈ db.entries → e.parent_id = i → e.name ≠ "." → e.name ≠ ".." →
      Database.remove_entry db parent_path name =
        .error "Directory not empty") := by
  constructor
  · intro db parent_path name pino i ino hp hsrc hino hmode hnl
    simp only [Database.remove_entry, hp, hsrc, hino]
    rw [if_neg (by simp [hmode])]
    rw [if_pos (by omega)]
    refine ⟨_, rfl, by simp, by intro k; simp, ?_, ?_⟩
    · intro e he
      have := (List.mem_filter.mp he).2
      simpa using this
    · rw [findEntry]
      rw [List.find?_eq_none.mpr]
      · rfl
      · intro e he
        have h1 := (List.mem_filter.mp (List.mem_filter.mp he).1).2
        simp at h1 ⊢
        tauto
  · intro db parent_path name pino i ino e hp hsrc hino hmode he hp' hn1 hn2
    simp only [Database.remove_entry, hp, hsrc, hino]
    rw [if_pos]
    constructor
    · exact hmode
    · apply List.length_pos.mpr
      apply List.ne_nil_of_mem
      apply List.mem_filter.mpr
      refine ⟨he, ?_⟩
      simp [hp', hn1, hn2]
/-- Witness for `remove_entry_last_link_and_notempty`: unlinking `/f`
(nlink 1 → 0: inode and chunks gone) and rmdir of the non-empty `/a`. -/
theorem remove_entry_witness :
    (∃ db', Database.remove_entry dbW "/" "f" = .ok db' ∧
      db'.inodes 2 = none ∧
      (∀ k, db'.chunks 2 k = none) ∧
      (∀ e ∈ db'.entries, e.inode_id ≠ 2) ∧
      findEntry db' 1 "f" = none) ∧
    Database.remove_entry dbD2 "/" "a" = .error "Directory not empty" :=
  ⟨remove_entry_last_link_and_notempty.1 dbW "/" "f" inoR 2 inoF rfl
      (by decide) rfl (by decide) (by decide),
    remove_entry_last_link_and_notempty.2 dbD2 "/" "a" inoR 2 inoD ⟨2, "f", 3⟩
      rfl (by decide) rfl (by decide) (by decide) rfl (by decide) (by decide)⟩
/-- C10: removing the entry of an empty directory (created by
`create_entry`: `nlink = 2`, only `.`/`..` rows under it) deletes only the
`(parent, name)` entry and decrements `nlink` to 1. The `nlink ≤ 0`
deletion branch does not run: the directory's inode row and its own
`.`/`..` rows survive in the database. -/
theorem rmdir_empty_dir_keeps_inode (db : DB) (parent_path name : String)
    (pino : Inode) (d : Nat) (dino : Inode)
    (hp : Database.get_inode_by_path db parent_path = some pino)
    (hsrc : findEntry db pino.id name = some d)
    (hino : db.inodes d = some dino)
    (hdir : dino.mode &&& 0o40000 ≠ 0)
    (hnl : dino.nlink = 2)
    (hempty : ∀ e ∈ db.entries, e.parent_id = d → e.name = "." ∨ e.name = "..")
    (hdot : (⟨d, ".", d⟩ : Entry) ∈ db.entries)
    (hdotdot : (⟨d, "..", pino.id⟩ : Entry) ∈ db.entries)
    (hpd : pino.id ≠ d) :
    ∃ db', Database.remove_entry db parent_path name = .ok db' ∧
      db'.inodes d = some { dino with nlink := 1 } ∧
      (⟨d, ".", d⟩ : Entry) ∈ db'.entries ∧
      (⟨d, "..", pino.id⟩ : Entry) ∈ db'.entries ∧
      findEntry db' pino.id name = none := by
  simp only [Database.remove_entry, hp, hsrc, hino]
  have hcnt : (db.entries.filter (fun e =>
      e.parent_id == d && e.name != "." && e.name != "..")).length = 0 := by
    rw [List.length_eq_zero]
    rw [List.filter_eq_nil_iff]
    intro e he
    rcases em (e.parent_id = d) with hpe | hpe
    · rcases hempty e he hpe with h | h <;> simp [h]
    · simp [hpe]
  rw [if_neg (by simp [hcnt])]
  rw [if_neg (by rw [hnl]; norm_num)]
  refine ⟨_, rfl, ?_, ?_, ?_, ?_⟩
  · norm_num [hnl]
  · exact List.mem_filter.mpr ⟨hdot, by simp [Ne.symm hpd]⟩
  · exact List.mem_filter.mpr ⟨hdotdot, by simp [Ne.symm hpd]⟩
  · rw [findEntry]
    rw [List.find?_eq_none.mpr]
    · rfl
    · intro e he
      have h1 := (List.mem_filter.mp he).2
      simp at h1 ⊢
      tauto

/-- Witness for `rmdir_empty_dir_keeps_inode`: removing the empty directory
`/a` of the fixture leaves inode 2 with `nlink = 1` and its dot rows. -/
theorem rmdir_empty_dir_keeps_inode_witness :
    ∃ db', Database.remove_entry dbD "/" "a" = .ok db' ∧
      db'.inodes 2 = some { inoD with nlink := 1 } ∧
      (⟨2, ".", 2⟩ : Entry) ∈ db'.entries ∧
      (⟨2, "..", 1⟩ : Entry) ∈ db'.entries ∧
      findEntry db' 1 "a" = none :=
  rmdir_empty_dir_keeps_inode dbD "/" "a" inoR 2 inoD rfl (by decide) rfl
    (by decide) rfl (by decide) (by decide) (by decide) (by decide)
